import Mathlib

/-!
Verification of the Bunny.net file-storage adapter (`BunnyFileStorage`).

The adapter translates calls of a key/value file-storage interface
(get / has / list / put / set / remove) into single HTTP requests against the
Bunny.net storage API and translates the responses back.  We embed the pure
decision logic of each method: given the inputs and the HTTP response a stub
transport would deliver, what request is issued and what value or error is
produced.  External platform primitives (fetch, crypto.subtle.digest, Date
parsing) are modelled as explicit parameters or response records.
-/

namespace BunnyStorage

/-- A JavaScript runtime value as far as the adapter inspects values with
`typeof` and `Array.isArray`: the adapter only ever distinguishes undefined,
null, booleans, numbers and strings on entry fields.  Numbers are modelled as
integers (the adapter only passes them through). -/
inductive JsValue where
  | jsUndefined
  | jsNull
  | jsBool (b : Bool)
  | jsNum (n : Int)
  | jsStr (s : String)
deriving DecidableEq, Repr

/-- The string produced by the JavaScript `typeof` operator on a value
(`typeof null` is "object"). -/
def typeofName : JsValue → String
  | .jsUndefined => "undefined"
  | .jsNull => "object"
  | .jsBool _ => "boolean"
  | .jsNum _ => "number"
  | .jsStr _ => "string"

/-- One entry of the listing payload (`BunnyListResponseSchema`): every field is
optional / untrusted, so each field is an arbitrary runtime value. -/
structure BunnyEntry where
  IsDirectory : JsValue
  Path : JsValue
  ObjectName : JsValue
  LastChanged : JsValue
  Length : JsValue
  ContentType : JsValue
deriving DecidableEq, Repr

/-- The error kinds the adapter raises.  `transport` models a plain `Error`
with the template message and the `cause` option (the parsed JSON body when the
response declares JSON content, otherwise undefined). -/
inductive StorageError where
  | transport (message : String) (cause : Option JsValue)
  | preserveRoot (message : String)
  | unknownContentType (message : String)
  | responseValidation (message : String)
  | inputValidation (message : String)
deriving DecidableEq, Repr

/-- The adapter configuration (`BunnyFileStorageOptions`). -/
structure BunnyConfig where
  urlStorage : String
  generateChecksums : Bool
  preserveRoot : Bool
deriving DecidableEq, Repr

/-- The defaults installed by the constructor. -/
def defaultConfig : BunnyConfig :=
  { urlStorage := "https://storage.bunnycdn.com"
    generateChecksums := true
    preserveRoot := true }

/-- An HTTP response as the adapter inspects it: status code, status text, the
Content-Type header (null when absent), the value `res.json()` would parse, and
the body bytes and blob content type `res.blob()` would yield. -/
structure HttpResponse where
  status : Nat
  statusText : String
  contentType : Option String
  jsonContent : JsValue
  bodyBytes : List Nat
  bodyMime : String
deriving DecidableEq, Repr

/-- An HTTP request the adapter issues (method and URL path). -/
structure HttpRequest where
  method : String
  url : String
deriving DecidableEq, Repr

/-- `Response.ok` of fetch: status in the inclusive range 200-299. -/
def resOk (status : Nat) : Bool :=
  decide (200 ≤ status) && decide (status ≤ 299)

/-- The `cause` attached to transport errors:
`res.headers.get("Content-Type") === "application/json" ? await res.json() : undefined`. -/
def jsonCause (res : HttpResponse) : Option JsValue :=
  if res.contentType = some "application/json" then some res.jsonContent else none

/-- Key-to-URL mapping (source line 325):
`/${storageZoneName}${key.startsWith("/") ? key : `/${key}`}`.
`startsWithSlashB` embeds `key.startsWith("/")`. -/
def startsWithSlashB (key : String) : Bool :=
  match key.data with
  | c :: _ => c = '/'
  | [] => false

def bunnyUrl (zone key : String) : String :=
  "/" ++ zone ++ (if startsWithSlashB key then key else "/" ++ key)

/-- A `File` value as the adapter constructs or consumes it: raw bytes, a
filename and a MIME type. -/
structure FileData where
  bytes : List Nat
  name : String
  mime : String
deriving DecidableEq, Repr

/-- JavaScript `key.split("/")` on the character list of the key: split at every
slash; always returns at least one (possibly empty) segment. -/
def splitOnSlash : List Char → List (List Char)
  | [] => [[]]
  | c :: rest =>
    match splitOnSlash rest with
    | [] => [[c]]
    | h :: t => if c = '/' then [] :: h :: t else (c :: h) :: t

/-- `key.split("/").pop() ?? key` (source line 109): the last segment, with the
whole key as the (unreachable) fallback for an empty array. -/
def lastPathSegment (key : String) : String :=
  String.mk ((splitOnSlash key.data).getLastD key.data)

/-- `get` (source lines 93-111), given the response the transport delivers:
404 yields absent, other non-success statuses raise a transport error, success
wraps the body bytes into a file named after the last path segment with the
blob content type. -/
def getRun (key : String) (res : HttpResponse) : Except StorageError (Option FileData) :=
  if res.status = 404 then .ok none
  else if resOk res.status = false then
    .error (.transport
      ("Failed to get file, status code: " ++ toString res.status ++ " " ++ res.statusText)
      (jsonCause res))
  else .ok (some { bytes := res.bodyBytes, name := lastPathSegment key, mime := res.bodyMime })

/-- `has` (source lines 127-141): any status other than 200 and 404 raises a
transport error; otherwise the result is `res.ok`. -/
def hasRun (res : HttpResponse) : Except StorageError Bool :=
  if res.status ≠ 200 ∧ res.status ≠ 404 then
    .error (.transport
      ("Failed to check existence, status code: " ++ toString res.status ++ " " ++ res.statusText)
      (jsonCause res))
  else .ok (resOk res.status)

/-- The message of the root-deletion guard (source line 265). -/
def preserveRootMsg : String :=
  "Denied deletion of root folder because \"preserveRoot\" is true. You may disable this via the constructor options."

/-- `remove` (source lines 263-279): result is the list of HTTP requests the
call performs together with its outcome.  The guard fires before any request;
otherwise exactly one DELETE request is issued and a non-success status raises
a transport error. -/
def removeRun (cfg : BunnyConfig) (zone key : String) (res : HttpResponse) :
    List HttpRequest × Except StorageError Unit :=
  if cfg.preserveRoot && (key = "" || key = "/") then
    ([], .error (.preserveRoot preserveRootMsg))
  else
    ([{ method := "DELETE", url := bunnyUrl zone key }],
      if resOk res.status then .ok ()
      else .error (.transport
        ("Deletion failed with status code: " ++ toString res.status ++ " " ++ res.statusText)
        (jsonCause res)))

/-- One hex digit as JavaScript `Number.prototype.toString(16)` renders it
(lowercase a-f). -/
def hexDigit (n : Nat) : Char :=
  if n < 10 then Char.ofNat (48 + n) else Char.ofNat (87 + n)

/-- `b.toString(16).padStart(2, "0")` for a byte value `b < 256`. -/
def hexByte (b : Nat) : String :=
  String.mk [hexDigit (b / 16 % 16), hexDigit (b % 16)]

/-- `hashArray.map(b => b.toString(16).padStart(2, "0")).join("")`. -/
def hexOfBytes (bs : List Nat) : String :=
  String.join (bs.map hexByte)

/-- `generateChecksum` (source lines 315-320): hex-render the digest bytes of
the file content and uppercase the result.  The SHA-256 primitive
(`crypto.subtle.digest`) is a platform collaborator, passed as `digest`. -/
def generateChecksum (digest : List Nat → List Nat) (bytes : List Nat) : String :=
  (hexOfBytes (digest bytes)).toUpper

/-- The default headers of `uploadFile` requests (source line 324). -/
def defaultHeaders (accessKey : String) : List (String × String) :=
  [("Accept", "application/json"), ("AccessKey", accessKey)]

/-- The PUT request built by `uploadFile` (source lines 286-302), which both
`put` and `set` delegate to: default headers, octet-stream content type, and —
exactly when `generateChecksums` is enabled — a Checksum header over the file
bytes; the body is the same file bytes. -/
structure UploadRequest where
  method : String
  url : String
  headers : List (String × String)
  bodyBytes : List Nat
deriving DecidableEq, Repr

def uploadRequest (cfg : BunnyConfig) (accessKey zone key : String)
    (digest : List Nat → List Nat) (file : FileData) : UploadRequest :=
  { method := "PUT"
    url := bunnyUrl zone key
    headers := defaultHeaders accessKey
      ++ [("Content-Type", "application/octet-stream")]
      ++ (if cfg.generateChecksums then [("Checksum", generateChecksum digest file.bytes)] else [])
    bodyBytes := file.bytes }

/-- The parsed JSON body of a list response as the adapter inspects it:
either an array of entries, or some other value of which only the `typeof`
name is relevant (source lines 174-176). -/
inductive ListBody where
  | arr (entries : List BunnyEntry)
  | nonArray (tname : String)
deriving DecidableEq, Repr

/-- A list response: the Content-Type header and the parsed JSON body. -/
structure ListResponse where
  contentType : Option String
  body : ListBody
deriving DecidableEq, Repr

/-- JavaScript template rendering of `res.headers.get("Content-Type")`,
which is null for an absent header. -/
def contentTypeText : Option String → String
  | some s => s
  | none => "null"

/-- Source line 181 message (no colon before the quoted type). -/
def msgIsDirectory (v : JsValue) : String :=
  "Expected \"IsDirectory\" to be a boolean but got \"" ++ (typeofName v ++ "\"")

/-- Source lines 187-191 message template (the Length check at line 189 says
"a string" in its message even though it checks for a number — reproduced
verbatim). -/
def msgWrongType (field expected : String) (v : JsValue) : String :=
  "Expected \"" ++ (field ++ ("\" to be a " ++ (expected ++ (" but got: \"" ++ (typeofName v ++ "\"")))))

/-- Source line 197 message. -/
def msgDateParse (lc : String) : String :=
  "Expected \"LastChanged\" to convert to a Date but failed, tried converting: \"" ++ (lc ++ "\"")

/-- The directory filter (source lines 179-184): `content.filter` whose
predicate throws on the first entry whose `IsDirectory` is not a boolean and
keeps entries with `IsDirectory === false`. -/
def checkDirFilter : List BunnyEntry → Except StorageError (List BunnyEntry)
  | [] => .ok []
  | e :: rest =>
    match e.IsDirectory with
    | .jsBool b =>
      match checkDirFilter rest with
      | .error err => .error err
      | .ok tail => .ok (if b then tail else e :: tail)
    | v => .error (.responseValidation (msgIsDirectory v))

/-- The metadata record produced under `includeMetadata` (source lines 199-205). -/
structure FileMeta where
  name : String
  lastModified : Int
  size : Int
  type : String
deriving DecidableEq, Repr

/-- One output item of `list`: the key, plus the metadata exactly when
`includeMetadata` was requested. -/
structure OutputItem where
  key : String
  meta : Option FileMeta
deriving DecidableEq, Repr

/-- The per-entry mapper (source lines 186-211): sequential type checks on
Path, ObjectName, Length, LastChanged, ContentType, then under
`includeMetadata === true` the date parse (`new Date(...).getTime()` with the
`isNaN` guard, modelled by the platform parameter `pd`). -/
def mapEntry (im : Bool) (pd : String → Option Int) (f : BunnyEntry) :
    Except StorageError OutputItem :=
  match f.Path with
  | .jsStr p =>
    match f.ObjectName with
    | .jsStr objName =>
      match f.Length with
      | .jsNum len =>
        match f.LastChanged with
        | .jsStr lc =>
          match f.ContentType with
          | .jsStr ct =>
            if im then
              match pd lc with
              | some t =>
                .ok { key := p ++ objName
                      meta := some { name := objName, lastModified := t, size := len, type := ct } }
              | none => .error (.responseValidation (msgDateParse lc))
            else .ok { key := p ++ objName, meta := none }
          | v => .error (.responseValidation (msgWrongType "ContentType" "string" v))
        | v => .error (.responseValidation (msgWrongType "LastChanged" "string" v))
      | v => .error (.responseValidation (msgWrongType "Length" "string" v))
    | v => .error (.responseValidation (msgWrongType "ObjectName" "string" v))
  | v => .error (.responseValidation (msgWrongType "Path" "string" v))

/-- `files.map(...)` over the mapper that can throw: entries are processed left
to right and the first error aborts the whole call. -/
def mapEntries (im : Bool) (pd : String → Option Int) :
    List BunnyEntry → Except StorageError (List OutputItem)
  | [] => .ok []
  | e :: rest =>
    match mapEntry im pd e with
    | .error err => .error err
    | .ok o =>
      match mapEntries im pd rest with
      | .error err => .error err
      | .ok os => .ok (o :: os)

/-- The response half of `list` (source lines 171-211): content-type gate,
array gate, directory filter, per-entry validation and mapping. -/
def listValidated (pd : String → Option Int) (im : Bool) (res : ListResponse) :
    Except StorageError (List OutputItem) :=
  if res.contentType ≠ some "application/json" then
    .error (.unknownContentType
      ("Expected a JSON response but Bunny.net replied with: " ++ contentTypeText res.contentType))
  else
    match res.body with
    | .nonArray t =>
      .error (.responseValidation ("Expected an array but Bunny.net replied with: \"" ++ (t ++ "\"")))
    | .arr content =>
      match checkDirFilter content with
      | .error err => .error err
      | .ok files => mapEntries im pd files

/-- One page returned by `list`. -/
structure PageResult where
  files : List OutputItem
  cursor : Option String
deriving DecidableEq, Repr

/-- The draft `list` of the embedded source (part_002 lines 161-217): full
validated set, cursor always undefined. -/
def listDraftRun (pd : String → Option Int) (im : Bool) (res : ListResponse) :
    Except StorageError PageResult :=
  match listValidated pd im res with
  | .error err => .error err
  | .ok files => .ok { files := files, cursor := none }

/-- The options of `list`.  `dirPath` is the directory-path option (called
prefix in the interface); it only shapes the request URL and does not affect
the claims settled here. -/
structure ListOpts where
  dirPath : Option String
  limit : Option Int
  cursor : Option String
  includeMetadata : Bool
deriving DecidableEq, Repr

/-- Modelled from the spec: the released `list` validates the `limit` option —
the implementation with input validation is not under src (only its unit test,
its export declaration and its changelog entry are).  Spec 4.4: limit, if
present, must be a positive integer, otherwise the call fails with
InputValidationError mentioning "limit". -/
def checkLimit : Option Int → Except StorageError Unit
  | none => .ok ()
  | some l =>
    if 0 < l then .ok ()
    else .error (.inputValidation
      ("Expected \"" ++ ("limit" ++ ("\" to be a positive integer but got: " ++ toString l))))

/-- Decimal digit accumulation for page tokens. -/
def parseDecimalAux : List Char → Nat → Option Nat
  | [], acc => some acc
  | c :: rest, acc =>
    if c.isDigit then parseDecimalAux rest (acc * 10 + (c.toNat - 48)) else none

/-- A page token is a non-empty string of decimal digits (the decimal rendering
of an offset, as produced by a prior call). -/
def parseDecimal (s : String) : Option Nat :=
  match s.data with
  | [] => none
  | cs => parseDecimalAux cs 0

/-- Modelled from the spec: the released `list` parses the `cursor` option —
the implementation is not under src.  Spec 4.4: the cursor is a decimal string
index (as produced by a prior call), defaulting to "0"; a malformed cursor
fails with InputValidationError mentioning "cursor". -/
def parseCursorOffset : Option String → Except StorageError Nat
  | none => .ok 0
  | some s =>
    match parseDecimal s with
    | some n => .ok n
    | none => .error (.inputValidation
      ("Expected \"" ++ ("cursor" ++ ("\" to be a well-formed page token but got: \"" ++ (s ++ "\"")))))

/-- Modelled from the spec: the client-side pagination of the released `list`
is not under src.  Spec 4.4: slice the full validated set starting at the
cursor offset, take up to limit entries (default all remaining); the returned
cursor is the decimal string of the next offset if more entries remain, else
absent. -/
def sliceOf (files : List OutputItem) (offset : Nat) (lim : Option Nat) : List OutputItem :=
  match lim with
  | some n => (files.drop offset).take n
  | none => files.drop offset

def paginate (files : List OutputItem) (offset : Nat) (lim : Option Nat) : PageResult :=
  { files := sliceOf files offset lim
    cursor :=
      if offset + (sliceOf files offset lim).length < files.length then
        some (toString (offset + (sliceOf files offset lim).length))
      else none }

/-- Modelled from the spec: the released `list` with input validation and
client-side pagination (spec 4.4), which is not under src; the
fetch/validate/filter stage reuses the embedded source pipeline
`listValidated`. -/
def listPaginated (pd : String → Option Int) (opts : ListOpts) (res : ListResponse) :
    Except StorageError PageResult :=
  match checkLimit opts.limit with
  | .error err => .error err
  | .ok _ =>
    match parseCursorOffset opts.cursor with
    | .error err => .error err
    | .ok offset =>
      match listValidated pd opts.includeMetadata res with
      | .error err => .error err
      | .ok files => .ok (paginate files offset (opts.limit.map Int.toNat))

/-- The validation messages the list pipeline can raise about one entry,
mirroring the checks of source lines 179-197: a non-boolean `IsDirectory`
always errs; field-type checks apply only to entries with
`IsDirectory === false` (directory entries are dropped by the filter without
further checks); the date-parse check applies only under `includeMetadata`. -/
def entryErrorMsgs (im : Bool) (pd : String → Option Int) (e : BunnyEntry) : List String :=
  match e.IsDirectory with
  | .jsBool true => []
  | .jsBool false =>
    (match e.Path with | .jsStr _ => [] | v => [msgWrongType "Path" "string" v]) ++
    (match e.ObjectName with | .jsStr _ => [] | v => [msgWrongType "ObjectName" "string" v]) ++
    (match e.Length with | .jsNum _ => [] | v => [msgWrongType "Length" "string" v]) ++
    (match e.LastChanged with | .jsStr _ => [] | v => [msgWrongType "LastChanged" "string" v]) ++
    (match e.ContentType with | .jsStr _ => [] | v => [msgWrongType "ContentType" "string" v]) ++
    (match e.Path, e.ObjectName, e.Length, e.LastChanged, e.ContentType with
      | .jsStr _, .jsStr _, .jsNum _, .jsStr lc, .jsStr _ =>
        if im = true ∧ pd lc = none then [msgDateParse lc] else []
      | _, _, _, _, _ => [])
  | v => [msgIsDirectory v]

/-- All five fields of a (non-directory) entry carry the types the mapper
demands: Path, ObjectName, LastChanged, ContentType strings and Length a
number. -/
def wellTypedFileFields (e : BunnyEntry) : Prop :=
  (∃ s, e.Path = .jsStr s) ∧ (∃ s, e.ObjectName = .jsStr s) ∧
  (∃ n, e.Length = .jsNum n) ∧ (∃ s, e.LastChanged = .jsStr s) ∧
  (∃ s, e.ContentType = .jsStr s)

/-- Take up to `lim` elements, or everything when no limit is given (the
slicing clause of spec 4.4). -/
def sliceUpTo (lim : Option Nat) (l : List OutputItem) : List OutputItem :=
  match lim with
  | some n => l.take n
  | none => l

/-- `put` delegates to `uploadFile` (source lines 234-236). -/
def putRequest (cfg : BunnyConfig) (accessKey zone key : String)
    (digest : List Nat → List Nat) (file : FileData) : UploadRequest :=
  uploadRequest cfg accessKey zone key digest file

/-- `set` delegates to `uploadFile` (source lines 248-250). -/
def setRequest (cfg : BunnyConfig) (accessKey zone key : String)
    (digest : List Nat → List Nat) (file : FileData) : UploadRequest :=
  uploadRequest cfg accessKey zone key digest file

/-! ## Helper lemmas -/

theorem strAppendAssoc (a b c : String) : a ++ b ++ c = a ++ (b ++ c) := by
  apply String.ext
  simp [String.data_append, List.append_assoc]

theorem mkData (s : String) : String.mk s.data = s := by
  cases s
  rfl

theorem splitOnSlash_of_no_slash (cs : List Char) (h : '/' ∉ cs) :
    splitOnSlash cs = [cs] := by
  induction cs with
  | nil => rfl
  | cons c rest ih =>
    have hc : c ≠ '/' := fun hc => h (hc ▸ List.mem_cons_self c rest)
    have hrest : '/' ∉ rest := fun hm => h (List.mem_cons_of_mem c hm)
    have hc2 : ¬(c = '/') := hc
    simp [splitOnSlash, ih hrest, hc2]

theorem bunnyUrl_split (zone key : String) :
    ∃ t : String, bunnyUrl zone key = "/" ++ zone ++ "/" ++ t ∧
      key = (if startsWithSlashB key then "/" ++ t else t) := by
  cases key with
  | mk data =>
    cases data with
    | nil =>
      refine ⟨String.mk [], ?_, ?_⟩
      · apply String.ext
        simp [bunnyUrl, startsWithSlashB, String.data_append]
      · rfl
    | cons c rest =>
      by_cases hc : c = '/'
      · subst hc
        refine ⟨String.mk rest, ?_, ?_⟩
        · apply String.ext
          simp [bunnyUrl, startsWithSlashB, String.data_append]
        · simp [startsWithSlashB]
          apply String.ext
          simp [String.data_append]
      · refine ⟨String.mk (c :: rest), ?_, ?_⟩
        · apply String.ext
          simp [bunnyUrl, startsWithSlashB, hc, String.data_append]
        · simp [startsWithSlashB, hc]

/-! ## Claim theorems: URL mapping, remove, upload, get, has -/

/-- C9: for every storage-zone name and every raw key string (whether or not
it starts with "/"), the key-to-URL mapping is a pure function (a Lean `def`
with no effects) whose result is `/<storageZoneName>/<tail>` where the tail is
the key itself with exactly one leading slash added at the join — the key is
preserved verbatim, so `..`, internal double slashes and trailing slashes are
neither escaped nor normalized. -/
theorem claim_C9_bunnyUrl_shape (zone key : String) :
    ∃ t : String, bunnyUrl zone key = "/" ++ zone ++ "/" ++ t ∧
      key = (if startsWithSlashB key then "/" ++ t else t) :=
  bunnyUrl_split zone key

/-- C4: for every key equal to "" or "/", while preserveRoot is enabled,
remove fails with PreserveRootError and performs no network call (the request
list is empty), whatever response a transport would have produced. -/
theorem claim_C4_remove_root_guard (cfg : BunnyConfig) (zone key : String)
    (res : HttpResponse) (hpr : cfg.preserveRoot = true) (hkey : key = "" ∨ key = "/") :
    removeRun cfg zone key res = ([], .error (.preserveRoot preserveRootMsg)) := by
  rcases hkey with h | h <;> subst h <;> simp [removeRun, hpr]

theorem claim_C4_witness :
    defaultConfig.preserveRoot = true ∧
    removeRun defaultConfig "zone" "/"
        { status := 200, statusText := "OK", contentType := none,
          jsonContent := .jsUndefined, bodyBytes := [], bodyMime := "" } =
      ([], .error (.preserveRoot preserveRootMsg)) :=
  ⟨rfl, claim_C4_remove_root_guard defaultConfig "zone" "/" _ rfl (Or.inr rfl)⟩

/-- C6: for every key not equal to the root ("" or "/"), remove issues exactly
one DELETE request to `/<zone>/<key-with-one-leading-slash>`, and any
non-success status (404 included) fails with a transport error carrying the
status code, the status text and the parsed JSON body exactly when the
response declares JSON content. -/
theorem claim_C6_remove_nonroot (cfg : BunnyConfig) (zone key : String)
    (res : HttpResponse) (h1 : key ≠ "") (h2 : key ≠ "/") :
    (∃ t : String,
      (removeRun cfg zone key res).1 = [{ method := "DELETE", url := "/" ++ zone ++ "/" ++ t }] ∧
      key = (if startsWithSlashB key then "/" ++ t else t)) ∧
    (resOk res.status = false →
      (removeRun cfg zone key res).2 = .error (.transport
        ("Deletion failed with status code: " ++ toString res.status ++ " " ++ res.statusText)
        (if res.contentType = some "application/json" then some res.jsonContent else none))) ∧
    (resOk res.status = true → (removeRun cfg zone key res).2 = .ok ()) := by
  obtain ⟨t, hurl, hshape⟩ := bunnyUrl_split zone key
  refine ⟨⟨t, ?_, hshape⟩, ?_, ?_⟩
  · simp [removeRun, h1, h2, hurl]
  · intro hok
    simp [removeRun, h1, h2, jsonCause, hok]
  · intro hok
    simp [removeRun, h1, h2, hok]

theorem claim_C6_witness :
    ("temporary-integration-test/NON_EXISTING_FILE" ≠ "" ∧
      "temporary-integration-test/NON_EXISTING_FILE" ≠ "/" ∧
      resOk 404 = false) ∧
    ((removeRun defaultConfig "zone" "temporary-integration-test/NON_EXISTING_FILE"
        { status := 404, statusText := "Not Found", contentType := none,
          jsonContent := .jsUndefined, bodyBytes := [], bodyMime := "" }).1 =
      [{ method := "DELETE", url := "/zone/temporary-integration-test/NON_EXISTING_FILE" }] ∧
     (removeRun defaultConfig "zone" "temporary-integration-test/NON_EXISTING_FILE"
        { status := 404, statusText := "Not Found", contentType := none,
          jsonContent := .jsUndefined, bodyBytes := [], bodyMime := "" }).2 =
      .error (.transport "Deletion failed with status code: 404 Not Found" none)) := by
  have h := claim_C6_remove_nonroot defaultConfig "zone"
    "temporary-integration-test/NON_EXISTING_FILE"
    { status := 404, statusText := "Not Found", contentType := none,
      jsonContent := .jsUndefined, bodyBytes := [], bodyMime := "" }
    (by decide) (by decide)
  refine ⟨⟨by decide, by decide, by decide⟩, ?_, ?_⟩
  · obtain ⟨⟨t, hurl, hshape⟩, _, _⟩ := h
    rw [hurl]
    have : t = "temporary-integration-test/NON_EXISTING_FILE" := by
      simpa [startsWithSlashB] using hshape.symm
    rw [this]
    rfl
  · have := h.2.1 (by decide)
    rw [this]
    rfl

/-- C5: the shared upload routine used by put and set transmits the file bytes
as the body, and attaches a Checksum header equal to the uppercase hexadecimal
rendering of the SHA-256 digest (the platform digest primitive, applied to
exactly the transmitted body bytes) precisely when generateChecksums is
enabled; when disabled no such header is attached. -/
theorem claim_C5_upload_checksum (cfg : BunnyConfig) (accessKey zone key : String)
    (digest : List Nat → List Nat) (file : FileData) :
    (uploadRequest cfg accessKey zone key digest file).bodyBytes = file.bytes ∧
    (uploadRequest cfg accessKey zone key digest file).headers.lookup "Checksum" =
      (if cfg.generateChecksums then
        some ((hexOfBytes (digest (uploadRequest cfg accessKey zone key digest file).bodyBytes)).toUpper)
      else none) := by
  obtain ⟨u, gc, pr⟩ := cfg
  cases gc <;> exact ⟨rfl, rfl⟩

/-- C7: get returns absent on a 404; fails with a transport error carrying
status code, status text and the parsed JSON body (when the response declares
JSON content) on any other non-success status; on success returns a file
wrapping the body bytes whose name is the last path segment of the key — the
whole key when no slash occurs in it — and whose MIME type is the reported
blob content type. -/
theorem claim_C7_get (key : String) (res : HttpResponse) :
    (res.status = 404 → getRun key res = .ok none) ∧
    (res.status ≠ 404 → resOk res.status = false →
      getRun key res = .error (.transport
        ("Failed to get file, status code: " ++ toString res.status ++ " " ++ res.statusText)
        (if res.contentType = some "application/json" then some res.jsonContent else none))) ∧
    (res.status ≠ 404 → resOk res.status = true →
      getRun key res =
        .ok (some { bytes := res.bodyBytes, name := lastPathSegment key, mime := res.bodyMime })) ∧
    ('/' ∉ key.data → lastPathSegment key = key) := by
  refine ⟨?_, ?_, ?_, ?_⟩
  · intro h
    simp [getRun, h]
  · intro h hok
    simp [getRun, h, hok, jsonCause]
  · intro h hok
    simp [getRun, h, hok]
  · intro h
    rw [lastPathSegment, splitOnSlash_of_no_slash key.data h]
    simp [mkData]

theorem claim_C7_witness :
    ((404 : Nat) ≠ 200 ∧ resOk 500 = false ∧ resOk 200 = true ∧
      '/' ∉ ("hello.txt" : String).data) ∧
    getRun "/path/to/hello.txt"
        { status := 404, statusText := "Not Found", contentType := none,
          jsonContent := .jsUndefined, bodyBytes := [], bodyMime := "" } = .ok none ∧
    getRun "/path/to/hello.txt"
        { status := 500, statusText := "Internal Server Error",
          contentType := some "application/json", jsonContent := .jsStr "oops",
          bodyBytes := [], bodyMime := "" } =
      .error (.transport "Failed to get file, status code: 500 Internal Server Error"
        (some (.jsStr "oops"))) ∧
    getRun "/path/to/hello.txt"
        { status := 200, statusText := "OK", contentType := none,
          jsonContent := .jsUndefined, bodyBytes := [104, 105], bodyMime := "text/plain" } =
      .ok (some { bytes := [104, 105], name := "hello.txt", mime := "text/plain" }) ∧
    lastPathSegment "hello.txt" = "hello.txt" := by
  refine ⟨⟨by decide, by decide, by decide, by decide⟩, ?_, ?_, ?_, ?_⟩
  · exact (claim_C7_get "/path/to/hello.txt" _).1 rfl
  · have := (claim_C7_get "/path/to/hello.txt"
      { status := 500, statusText := "Internal Server Error",
        contentType := some "application/json", jsonContent := .jsStr "oops",
        bodyBytes := [], bodyMime := "" }).2.1 (by decide) (by decide)
    rw [this]
    rfl
  · have := (claim_C7_get "/path/to/hello.txt"
      { status := 200, statusText := "OK", contentType := none,
        jsonContent := .jsUndefined, bodyBytes := [104, 105], bodyMime := "text/plain" }).2.2.1
      (by decide) (by decide)
    rw [this]
    rfl
  · exact (claim_C7_get "hello.txt"
      { status := 200, statusText := "OK", contentType := none,
        jsonContent := .jsUndefined, bodyBytes := [], bodyMime := "" }).2.2.2 (by decide)

/-- C8 counterexample: 204 No Content is a success status (`res.ok` holds),
yet has raises a transport error instead of returning true — the guard allows
only the statuses 200 and 404, as the source doc comment states. -/
theorem claim_C8_counterexample :
    resOk 204 = true ∧
    hasRun { status := 204, statusText := "No Content", contentType := none,
             jsonContent := .jsUndefined, bodyBytes := [], bodyMime := "" } =
      .error (.transport "Failed to check existence, status code: 204 No Content" none) := by
  constructor
  · decide
  · rfl

/-- C8 (amended): has returns true exactly on status 200, returns false on 404
without raising, and fails with a transport error (same shape as for get:
status code, status text, JSON cause) on every other status — success statuses
other than 200 included. -/
theorem claim_C8_has_statuses (res : HttpResponse) :
    (res.status = 200 → hasRun res = .ok true) ∧
    (res.status = 404 → hasRun res = .ok false) ∧
    (res.status ≠ 200 → res.status ≠ 404 →
      hasRun res = .error (.transport
        ("Failed to check existence, status code: " ++ toString res.status ++ " " ++ res.statusText)
        (if res.contentType = some "application/json" then some res.jsonContent else none))) := by
  refine ⟨?_, ?_, ?_⟩
  · intro h
    simp [hasRun, h, resOk]
  · intro h
    simp [hasRun, h, resOk]
  · intro h1 h2
    simp [hasRun, h1, h2, jsonCause]

theorem claim_C8_witness :
    ((200 : Nat) = 200 ∧ (404 : Nat) = 404 ∧ (503 : Nat) ≠ 200 ∧ (503 : Nat) ≠ 404) ∧
    hasRun { status := 200, statusText := "OK", contentType := none,
             jsonContent := .jsUndefined, bodyBytes := [], bodyMime := "" } = .ok true ∧
    hasRun { status := 404, statusText := "Not Found", contentType := none,
             jsonContent := .jsUndefined, bodyBytes := [], bodyMime := "" } = .ok false ∧
    hasRun { status := 503, statusText := "Service Unavailable", contentType := none,
             jsonContent := .jsUndefined, bodyBytes := [], bodyMime := "" } =
      .error (.transport "Failed to check existence, status code: 503 Service Unavailable" none) := by
  refine ⟨⟨rfl, rfl, by decide, by decide⟩, ?_, ?_, ?_⟩
  · exact (claim_C8_has_statuses _).1 rfl
  · exact (claim_C8_has_statuses _).2.1 rfl
  · have := (claim_C8_has_statuses
      { status := 503, statusText := "Service Unavailable", contentType := none,
        jsonContent := .jsUndefined, bodyBytes := [], bodyMime := "" }).2.2
      (by decide) (by decide)
    rw [this]
    rfl


/-! ## List pipeline lemmas -/

theorem checkDirFilter_ok (l : List BunnyEntry)
    (h : ∀ e ∈ l, ∃ b, e.IsDirectory = .jsBool b) :
    checkDirFilter l = .ok (l.filter fun e => e.IsDirectory = .jsBool false) := by
  induction l with
  | nil => rfl
  | cons e rest ih =>
    obtain ⟨b, hb⟩ := h e (List.mem_cons_self e rest)
    have hrest := ih fun x hx => h x (List.mem_cons_of_mem e hx)
    cases b <;> simp [checkDirFilter, hb, hrest, List.filter]

theorem checkDirFilter_err (l : List BunnyEntry)
    (h : ∃ e ∈ l, ∀ b, e.IsDirectory ≠ .jsBool b) :
    ∃ e ∈ l, (∀ b, e.IsDirectory ≠ .jsBool b) ∧
      checkDirFilter l = .error (.responseValidation (msgIsDirectory e.IsDirectory)) := by
  induction l with
  | nil => simp at h
  | cons e rest ih =>
    cases hd : e.IsDirectory with
    | jsBool b =>
      obtain ⟨x, hx, hxb⟩ := h
      rcases List.mem_cons.mp hx with hxe | hxr
      · subst hxe
        exact absurd hd (hxb b)
      · obtain ⟨y, hy, hyb, herr⟩ := ih ⟨x, hxr, hxb⟩
        exact ⟨y, List.mem_cons_of_mem e hy, hyb, by simp [checkDirFilter, hd, herr]⟩
    | jsUndefined =>
      refine ⟨e, List.mem_cons_self e rest, fun b hb => ?_, by simp [checkDirFilter, hd]⟩
      rw [hd] at hb
      simp at hb
    | jsNull =>
      refine ⟨e, List.mem_cons_self e rest, fun b hb => ?_, by simp [checkDirFilter, hd]⟩
      rw [hd] at hb
      simp at hb
    | jsNum n =>
      refine ⟨e, List.mem_cons_self e rest, fun b hb => ?_, by simp [checkDirFilter, hd]⟩
      rw [hd] at hb
      simp at hb
    | jsStr s =>
      refine ⟨e, List.mem_cons_self e rest, fun b hb => ?_, by simp [checkDirFilter, hd]⟩
      rw [hd] at hb
      simp at hb

theorem mapEntry_ok_of_nil (im : Bool) (pd : String → Option Int) (e : BunnyEntry)
    (hdir : e.IsDirectory = .jsBool false) (h : entryErrorMsgs im pd e = []) :
    ∃ o, mapEntry im pd e = .ok o := by
  cases hP : e.Path with
  | jsUndefined => simp [entryErrorMsgs, hdir, hP] at h
  | jsNull => simp [entryErrorMsgs, hdir, hP] at h
  | jsBool b => simp [entryErrorMsgs, hdir, hP] at h
  | jsNum n => simp [entryErrorMsgs, hdir, hP] at h
  | jsStr p =>
    cases hO : e.ObjectName with
    | jsUndefined => simp [entryErrorMsgs, hdir, hP, hO] at h
    | jsNull => simp [entryErrorMsgs, hdir, hP, hO] at h
    | jsBool b => simp [entryErrorMsgs, hdir, hP, hO] at h
    | jsNum n => simp [entryErrorMsgs, hdir, hP, hO] at h
    | jsStr objName =>
      cases hL : e.Length with
      | jsUndefined => simp [entryErrorMsgs, hdir, hP, hO, hL] at h
      | jsNull => simp [entryErrorMsgs, hdir, hP, hO, hL] at h
      | jsBool b => simp [entryErrorMsgs, hdir, hP, hO, hL] at h
      | jsStr s => simp [entryErrorMsgs, hdir, hP, hO, hL] at h
      | jsNum len =>
        cases hC : e.LastChanged with
        | jsUndefined => simp [entryErrorMsgs, hdir, hP, hO, hL, hC] at h
        | jsNull => simp [entryErrorMsgs, hdir, hP, hO, hL, hC] at h
        | jsBool b => simp [entryErrorMsgs, hdir, hP, hO, hL, hC] at h
        | jsNum n => simp [entryErrorMsgs, hdir, hP, hO, hL, hC] at h
        | jsStr lc =>
          cases hT : e.ContentType with
          | jsUndefined => simp [entryErrorMsgs, hdir, hP, hO, hL, hC, hT] at h
          | jsNull => simp [entryErrorMsgs, hdir, hP, hO, hL, hC, hT] at h
          | jsBool b => simp [entryErrorMsgs, hdir, hP, hO, hL, hC, hT] at h
          | jsNum n => simp [entryErrorMsgs, hdir, hP, hO, hL, hC, hT] at h
          | jsStr ct =>
            cases him : im with
            | false =>
              exact ⟨{ key := p ++ objName, meta := none },
                by simp [mapEntry, hP, hO, hL, hC, hT, him]⟩
            | true =>
              cases hpd : pd lc with
              | some t =>
                exact ⟨{ key := p ++ objName
                         meta := some { name := objName, lastModified := t, size := len, type := ct } },
                  by simp [mapEntry, hP, hO, hL, hC, hT, him, hpd]⟩
              | none => simp [entryErrorMsgs, hdir, hP, hO, hL, hC, hT, him, hpd] at h

theorem mapEntry_err_of_nonnil (im : Bool) (pd : String → Option Int) (e : BunnyEntry)
    (hdir : e.IsDirectory = .jsBool false) (h : entryErrorMsgs im pd e ≠ []) :
    ∃ m ∈ entryErrorMsgs im pd e, mapEntry im pd e = .error (.responseValidation m) := by
  cases hP : e.Path with
  | jsUndefined =>
    refine ⟨msgWrongType "Path" "string" .jsUndefined, ?_, ?_⟩
    · simp [entryErrorMsgs, hdir, hP]
    · simp [mapEntry, hP]
  | jsNull =>
    refine ⟨msgWrongType "Path" "string" .jsNull, ?_, ?_⟩
    · simp [entryErrorMsgs, hdir, hP]
    · simp [mapEntry, hP]
  | jsBool b =>
    refine ⟨msgWrongType "Path" "string" (.jsBool b), ?_, ?_⟩
    · simp [entryErrorMsgs, hdir, hP]
    · simp [mapEntry, hP]
  | jsNum n =>
    refine ⟨msgWrongType "Path" "string" (.jsNum n), ?_, ?_⟩
    · simp [entryErrorMsgs, hdir, hP]
    · simp [mapEntry, hP]
  | jsStr p =>
    cases hO : e.ObjectName with
    | jsUndefined =>
      refine ⟨msgWrongType "ObjectName" "string" .jsUndefined, ?_, ?_⟩
      · simp [entryErrorMsgs, hdir, hP, hO]
      · simp [mapEntry, hP, hO]
    | jsNull =>
      refine ⟨msgWrongType "ObjectName" "string" .jsNull, ?_, ?_⟩
      · simp [entryErrorMsgs, hdir, hP, hO]
      · simp [mapEntry, hP, hO]
    | jsBool b =>
      refine ⟨msgWrongType "ObjectName" "string" (.jsBool b), ?_, ?_⟩
      · simp [entryErrorMsgs, hdir, hP, hO]
      · simp [mapEntry, hP, hO]
    | jsNum n =>
      refine ⟨msgWrongType "ObjectName" "string" (.jsNum n), ?_, ?_⟩
      · simp [entryErrorMsgs, hdir, hP, hO]
      · simp [mapEntry, hP, hO]
    | jsStr objName =>
      cases hL : e.Length with
      | jsUndefined =>
        refine ⟨msgWrongType "Length" "string" .jsUndefined, ?_, ?_⟩
        · simp [entryErrorMsgs, hdir, hP, hO, hL]
        · simp [mapEntry, hP, hO, hL]
      | jsNull =>
        refine ⟨msgWrongType "Length" "string" .jsNull, ?_, ?_⟩
        · simp [entryErrorMsgs, hdir, hP, hO, hL]
        · simp [mapEntry, hP, hO, hL]
      | jsBool b =>
        refine ⟨msgWrongType "Length" "string" (.jsBool b), ?_, ?_⟩
        · simp [entryErrorMsgs, hdir, hP, hO, hL]
        · simp [mapEntry, hP, hO, hL]
      | jsStr s =>
        refine ⟨msgWrongType "Length" "string" (.jsStr s), ?_, ?_⟩
        · simp [entryErrorMsgs, hdir, hP, hO, hL]
        · simp [mapEntry, hP, hO, hL]
      | jsNum len =>
        cases hC : e.LastChanged with
        | jsUndefined =>
          refine ⟨msgWrongType "LastChanged" "string" .jsUndefined, ?_, ?_⟩
          · simp [entryErrorMsgs, hdir, hP, hO, hL, hC]
          · simp [mapEntry, hP, hO, hL, hC]
        | jsNull =>
          refine ⟨msgWrongType "LastChanged" "string" .jsNull, ?_, ?_⟩
          · simp [entryErrorMsgs, hdir, hP, hO, hL, hC]
          · simp [mapEntry, hP, hO, hL, hC]
        | jsBool b =>
          refine ⟨msgWrongType "LastChanged" "string" (.jsBool b), ?_, ?_⟩
          · simp [entryErrorMsgs, hdir, hP, hO, hL, hC]
          · simp [mapEntry, hP, hO, hL, hC]
        | jsNum n =>
          refine ⟨msgWrongType "LastChanged" "string" (.jsNum n), ?_, ?_⟩
          · simp [entryErrorMsgs, hdir, hP, hO, hL, hC]
          · simp [mapEntry, hP, hO, hL, hC]
        | jsStr lc =>
          cases hT : e.ContentType with
          | jsUndefined =>
            refine ⟨msgWrongType "ContentType" "string" .jsUndefined, ?_, ?_⟩
            · simp [entryErrorMsgs, hdir, hP, hO, hL, hC, hT]
            · simp [mapEntry, hP, hO, hL, hC, hT]
          | jsNull =>
            refine ⟨msgWrongType "ContentType" "string" .jsNull, ?_, ?_⟩
            · simp [entryErrorMsgs, hdir, hP, hO, hL, hC, hT]
            · simp [mapEntry, hP, hO, hL, hC, hT]
          | jsBool b =>
            refine ⟨msgWrongType "ContentType" "string" (.jsBool b), ?_, ?_⟩
            · simp [entryErrorMsgs, hdir, hP, hO, hL, hC, hT]
            · simp [mapEntry, hP, hO, hL, hC, hT]
          | jsNum n =>
            refine ⟨msgWrongType "ContentType" "string" (.jsNum n), ?_, ?_⟩
            · simp [entryErrorMsgs, hdir, hP, hO, hL, hC, hT]
            · simp [mapEntry, hP, hO, hL, hC, hT]
          | jsStr ct =>
            cases him : im with
            | false => simp [entryErrorMsgs, hdir, hP, hO, hL, hC, hT, him] at h
            | true =>
              cases hpd : pd lc with
              | some t => simp [entryErrorMsgs, hdir, hP, hO, hL, hC, hT, him, hpd] at h
              | none =>
                refine ⟨msgDateParse lc, ?_, ?_⟩
                · simp [entryErrorMsgs, hdir, hP, hO, hL, hC, hT, him, hpd]
                · simp [mapEntry, hP, hO, hL, hC, hT, him, hpd]

theorem mapEntry_pd_irrel (pd pd2 : String → Option Int) (e : BunnyEntry) :
    mapEntry false pd e = mapEntry false pd2 e := by
  unfold mapEntry
  cases e.Path <;> rfl

theorem mapEntries_pd_irrel (pd pd2 : String → Option Int) (l : List BunnyEntry) :
    mapEntries false pd l = mapEntries false pd2 l := by
  induction l with
  | nil => rfl
  | cons e rest ih => simp [mapEntries, mapEntry_pd_irrel pd pd2 e, ih]

theorem mapEntries_ok (im : Bool) (pd : String → Option Int) :
    ∀ l : List BunnyEntry, (∀ e ∈ l, e.IsDirectory = .jsBool false) →
      (∀ e ∈ l, entryErrorMsgs im pd e = []) →
      ∃ out, mapEntries im pd l = .ok out := by
  intro l
  induction l with
  | nil => exact fun _ _ => ⟨[], rfl⟩
  | cons e rest ih =>
    intro hdir h
    obtain ⟨o, ho⟩ := mapEntry_ok_of_nil im pd e (hdir e (List.mem_cons_self e rest))
      (h e (List.mem_cons_self e rest))
    obtain ⟨os, hos⟩ := ih (fun x hx => hdir x (List.mem_cons_of_mem e hx))
      (fun x hx => h x (List.mem_cons_of_mem e hx))
    exact ⟨o :: os, by simp [mapEntries, ho, hos]⟩

theorem mapEntries_err (im : Bool) (pd : String → Option Int) :
    ∀ l : List BunnyEntry, (∀ e ∈ l, e.IsDirectory = .jsBool false) →
      (∃ e ∈ l, entryErrorMsgs im pd e ≠ []) →
      ∃ e ∈ l, ∃ m ∈ entryErrorMsgs im pd e,
        mapEntries im pd l = .error (.responseValidation m) := by
  intro l
  induction l with
  | nil => intro _ h; simp at h
  | cons e rest ih =>
    intro hdir hex
    by_cases he : entryErrorMsgs im pd e = []
    · obtain ⟨o, ho⟩ := mapEntry_ok_of_nil im pd e (hdir e (List.mem_cons_self e rest)) he
      have hex2 : ∃ x ∈ rest, entryErrorMsgs im pd x ≠ [] := by
        obtain ⟨x, hx, hxne⟩ := hex
        rcases List.mem_cons.mp hx with hxe | hxr
        · subst hxe
          exact absurd he hxne
        · exact ⟨x, hxr, hxne⟩
      obtain ⟨y, hy, m, hm, herr⟩ := ih (fun x hx => hdir x (List.mem_cons_of_mem e hx)) hex2
      exact ⟨y, List.mem_cons_of_mem e hy, m, hm, by simp [mapEntries, ho, herr]⟩
    · obtain ⟨m, hm, herr⟩ := mapEntry_err_of_nonnil im pd e
        (hdir e (List.mem_cons_self e rest)) he
      exact ⟨e, List.mem_cons_self e rest, m, hm, by simp [mapEntries, herr]⟩

theorem listValidated_arr (pd : String → Option Int) (im : Bool)
    (content : List BunnyEntry) (res : ListResponse)
    (hct : res.contentType = some "application/json") (hb : res.body = .arr content) :
    listValidated pd im res =
      (match checkDirFilter content with
        | .error err => .error err
        | .ok files => mapEntries im pd files) := by
  simp [listValidated, hct, hb]

theorem listValidated_pd_irrel (pd pd2 : String → Option Int) (r : ListResponse) :
    listValidated pd false r = listValidated pd2 false r := by
  obtain ⟨ct, body⟩ := r
  unfold listValidated
  by_cases hct : ct = some "application/json"
  · cases body with
    | nonArray t => rfl
    | arr content =>
      simp only [hct]
      cases hc : checkDirFilter content with
      | error err => simp
      | ok files => simpa using mapEntries_pd_irrel pd pd2 files
  · simp [hct]

theorem paginate_spec (files : List OutputItem) (offset : Nat) (lim : Option Nat) :
    (paginate files offset lim).files = sliceOf files offset lim ∧
    (∀ s, (paginate files offset lim).cursor = some s →
      s = toString (offset + (paginate files offset lim).files.length) ∧
      offset + (paginate files offset lim).files.length < files.length) ∧
    ((paginate files offset lim).cursor = none ↔
      files.length ≤ offset + (paginate files offset lim).files.length) := by
  refine ⟨rfl, ?_, ?_⟩
  · intro s hs
    simp only [paginate] at hs ⊢
    split at hs
    · next h => exact ⟨(Option.some.inj hs).symm, h⟩
    · cases hs
  · simp only [paginate]
    by_cases h : offset + (sliceOf files offset lim).length < files.length
    · rw [if_pos h]
      exact ⟨fun hx => (Option.some_ne_none _ hx).elim, fun hle => absurd h (not_lt.mpr hle)⟩
    · rw [if_neg h]
      exact iff_of_true rfl (Nat.not_lt.mp h)

/-! ## Claim theorems: list -/

/-- C10: in list, only entries whose IsDirectory is false undergo field-type
validation of Path, ObjectName, Length, LastChanged and ContentType — a
directory entry (IsDirectory true) is dropped after only the IsDirectory
boolean check, so a directory entry whose other fields are malformed never
fails the call (the hypotheses constrain only the non-directory entries; the
witness exercises a directory entry with a numeric Path) — and the
parseability of LastChanged as a date is only enforced when includeMetadata is
true: with includeMetadata false the whole call is independent of the date
parser. -/
theorem claim_C10_directory_entries_skip_validation
    (pd pd2 : String → Option Int) (content : List BunnyEntry) (res : ListResponse)
    (hct : res.contentType = some "application/json") (hb : res.body = .arr content)
    (hbool : ∀ e ∈ content, ∃ b, e.IsDirectory = .jsBool b)
    (hfiles : ∀ e ∈ content, e.IsDirectory = .jsBool false → wellTypedFileFields e) :
    (∃ out, listDraftRun pd false res = .ok out) ∧
    (∀ r, listDraftRun pd false r = listDraftRun pd2 false r) := by
  constructor
  · have hcdf := checkDirFilter_ok content hbool
    have hdirf : ∀ e ∈ content.filter (fun e => e.IsDirectory = .jsBool false),
        e.IsDirectory = .jsBool false := by
      intro e he
      exact of_decide_eq_true (List.mem_filter.mp he).2
    have hmsgs : ∀ e ∈ content.filter (fun e => e.IsDirectory = .jsBool false),
        entryErrorMsgs false pd e = [] := by
      intro e he
      have hdf := hdirf e he
      obtain ⟨⟨p, hp⟩, ⟨o2, ho2⟩, ⟨n2, hn2⟩, ⟨lc, hlc⟩, ⟨ct, hct2⟩⟩ :=
        hfiles e (List.mem_of_mem_filter he) hdf
      simp [entryErrorMsgs, hdf, hp, ho2, hn2, hlc, hct2]
    obtain ⟨out, hout⟩ := mapEntries_ok false pd _ hdirf hmsgs
    refine ⟨{ files := out, cursor := none }, ?_⟩
    simp [listDraftRun, listValidated_arr pd false content res hct hb, hcdf, hout]
  · intro r
    simp [listDraftRun, listValidated_pd_irrel pd pd2 r]

theorem claim_C10_witness :
    (∃ out, listDraftRun (fun _ => (none : Option Int)) false { contentType := some "application/json", body := .arr [{ IsDirectory := .jsBool true, Path := .jsNum 7, ObjectName := .jsNull, LastChanged := .jsUndefined, Length := .jsStr "x", ContentType := .jsNull }, { IsDirectory := .jsBool false, Path := .jsStr "/w/", ObjectName := .jsStr "w.txt", LastChanged := .jsStr "2026-02-05", Length := .jsNum 3, ContentType := .jsStr "text/plain" }] } = .ok out) ∧
    (∀ r, listDraftRun (fun _ => (none : Option Int)) false r =
      listDraftRun (fun _ => (some 0 : Option Int)) false r) := by
  refine claim_C10_directory_entries_skip_validation _ _ _ _ rfl rfl ?_ ?_
  · intro e he
    simp only [List.mem_cons, List.not_mem_nil, or_false] at he
    rcases he with rfl | rfl
    · exact ⟨true, rfl⟩
    · exact ⟨false, rfl⟩
  · intro e he hdf
    simp only [List.mem_cons, List.not_mem_nil, or_false] at he
    rcases he with rfl | rfl
    · simp at hdf
    · exact ⟨⟨"/w/", rfl⟩, ⟨"w.txt", rfl⟩, ⟨3, rfl⟩, ⟨"2026-02-05", rfl⟩, ⟨"text/plain", rfl⟩⟩

/-- C3 is contradicted by the code: an entry of the response array with a
wrongly typed field (here a directory entry whose Path is the number 42) does
NOT fail the call — the entry is dropped after the IsDirectory check and the
call succeeds; a non-directory entry whose LastChanged string parses to no
valid date (the parser here rejects every string) also passes when
includeMetadata is false. -/
theorem claim_C3_counterexample :
    typeofName (JsValue.jsNum 42) ≠ "string" ∧
    listDraftRun (fun _ => (none : Option Int)) false { contentType := some "application/json", body := .arr [{ IsDirectory := .jsBool true, Path := .jsNum 42, ObjectName := .jsNull, LastChanged := .jsUndefined, Length := .jsStr "x", ContentType := .jsNull }, { IsDirectory := .jsBool false, Path := .jsStr "/docs/", ObjectName := .jsStr "a.txt", LastChanged := .jsStr "not-a-date", Length := .jsNum 3, ContentType := .jsStr "text/plain" }] } =
      .ok { files := [{ key := "/docs/a.txt", meta := none }], cursor := none } := by
  exact ⟨by decide, by rfl⟩

/-- C3 (amended): a response-array entry with a non-boolean IsDirectory, or a
non-directory entry (IsDirectory false) with a wrongly typed Path, ObjectName,
Length, LastChanged or ContentType, or — when includeMetadata is true — an
unparseable LastChanged, fails the whole call with ResponseValidationError
whose message names the offending field and its actual type
(`entryErrorMsgs` enumerates exactly those messages), and no partial list of
files is returned. -/
theorem claim_C3_validation_failure (pd : String → Option Int) (im : Bool)
    (content : List BunnyEntry) (res : ListResponse)
    (hct : res.contentType = some "application/json") (hb : res.body = .arr content)
    (hbad : ∃ e ∈ content, entryErrorMsgs im pd e ≠ []) :
    ∃ m, listDraftRun pd im res = .error (.responseValidation m) ∧
      ∃ e ∈ content, m ∈ entryErrorMsgs im pd e := by
  by_cases hall : ∀ e ∈ content, ∃ b, e.IsDirectory = .jsBool b
  · have hcdf := checkDirFilter_ok content hall
    obtain ⟨x, hx, hxne⟩ := hbad
    obtain ⟨b, hxb⟩ := hall x hx
    cases b with
    | true =>
      exact absurd (by simp [entryErrorMsgs, hxb]) hxne
    | false =>
      have hdirf : ∀ e ∈ content.filter (fun e => e.IsDirectory = .jsBool false),
          e.IsDirectory = .jsBool false := fun e he =>
        of_decide_eq_true (List.mem_filter.mp he).2
      have hxf : x ∈ content.filter (fun e => e.IsDirectory = .jsBool false) :=
        List.mem_filter.mpr ⟨hx, by simp [hxb]⟩
      obtain ⟨y, hy, m, hm, herr⟩ := mapEntries_err im pd _ hdirf ⟨x, hxf, hxne⟩
      refine ⟨m, ?_, y, List.mem_of_mem_filter hy, hm⟩
      simp [listDraftRun, listValidated_arr pd im content res hct hb, hcdf, herr]
  · push_neg at hall
    obtain ⟨e, he, heb, herr⟩ := checkDirFilter_err content hall
    refine ⟨msgIsDirectory e.IsDirectory, ?_, e, he, ?_⟩
    · simp [listDraftRun, listValidated_arr pd im content res hct hb, herr]
    · cases hd : e.IsDirectory with
      | jsBool b => exact absurd hd (heb b)
      | jsUndefined => simp [entryErrorMsgs, hd]
      | jsNull => simp [entryErrorMsgs, hd]
      | jsNum n => simp [entryErrorMsgs, hd]
      | jsStr s => simp [entryErrorMsgs, hd]

theorem claim_C3_witness :
    (∃ e ∈ [({ IsDirectory := .jsBool false, Path := .jsStr "/", ObjectName := .jsStr "b.txt", LastChanged := .jsStr "2026-01-01", Length := .jsStr "big", ContentType := .jsStr "" } : BunnyEntry)], entryErrorMsgs false (fun _ => (none : Option Int)) e ≠ []) ∧
    (∃ m, listDraftRun (fun _ => (none : Option Int)) false { contentType := some "application/json", body := .arr [{ IsDirectory := .jsBool false, Path := .jsStr "/", ObjectName := .jsStr "b.txt", LastChanged := .jsStr "2026-01-01", Length := .jsStr "big", ContentType := .jsStr "" }] } = .error (.responseValidation m) ∧
      ∃ e ∈ [({ IsDirectory := .jsBool false, Path := .jsStr "/", ObjectName := .jsStr "b.txt", LastChanged := .jsStr "2026-01-01", Length := .jsStr "big", ContentType := .jsStr "" } : BunnyEntry)], m ∈ entryErrorMsgs false (fun _ => (none : Option Int)) e) := by
  have hbad : ∃ e ∈ [({ IsDirectory := .jsBool false, Path := .jsStr "/", ObjectName := .jsStr "b.txt", LastChanged := .jsStr "2026-01-01", Length := .jsStr "big", ContentType := .jsStr "" } : BunnyEntry)], entryErrorMsgs false (fun _ => (none : Option Int)) e ≠ [] :=
    ⟨_, List.mem_cons_self _ _, by decide⟩
  exact ⟨hbad, claim_C3_validation_failure _ _ _ _ rfl rfl hbad⟩

/-- C1: for a list call whose limit and cursor pass validation (supplied
cursor parsing to `offset`, absent cursor giving offset 0) and whose response
validates to the full file set `allFiles`, the returned page is the slice of
`allFiles` starting at `offset` taking up to limit entries (all remaining when
no limit is given), and the returned cursor is the decimal string of the next
offset when more entries remain and is absent exactly when there are no
further pages. -/
theorem claim_C1_pagination (pd : String → Option Int) (opts : ListOpts) (res : ListResponse)
    (allFiles : List OutputItem) (offset : Nat)
    (hlim : checkLimit opts.limit = .ok ())
    (hcur : parseCursorOffset opts.cursor = .ok offset)
    (hval : listValidated pd opts.includeMetadata res = .ok allFiles) :
    ∃ page, listPaginated pd opts res = .ok page ∧
      page.files = sliceUpTo (opts.limit.map Int.toNat) (allFiles.drop offset) ∧
      (∀ s, page.cursor = some s →
        s = toString (offset + page.files.length) ∧
        offset + page.files.length < allFiles.length) ∧
      (page.cursor = none ↔ allFiles.length ≤ offset + page.files.length) := by
  have hps := paginate_spec allFiles offset (opts.limit.map Int.toNat)
  refine ⟨paginate allFiles offset (opts.limit.map Int.toNat), ?_, ?_, hps.2.1, hps.2.2⟩
  · simp [listPaginated, hlim, hcur, hval]
  · rw [hps.1]
    cases h : opts.limit.map Int.toNat <;> simp [sliceOf, sliceUpTo, h]

theorem claim_C1_witness :
    (checkLimit (some 1) = .ok () ∧ parseCursorOffset (some "0") = .ok 0 ∧
      listValidated (fun _ => (none : Option Int)) false { contentType := some "application/json", body := .arr [{ IsDirectory := .jsBool false, Path := .jsStr "/p/", ObjectName := .jsStr "one.txt", LastChanged := .jsStr "2026-02-05", Length := .jsNum 2, ContentType := .jsStr "text/plain" }, { IsDirectory := .jsBool false, Path := .jsStr "/p/", ObjectName := .jsStr "two.txt", LastChanged := .jsStr "2026-02-05", Length := .jsNum 2, ContentType := .jsStr "text/plain" }] } =
        .ok [{ key := "/p/one.txt", meta := none }, { key := "/p/two.txt", meta := none }]) ∧
    (∃ page, listPaginated (fun _ => (none : Option Int)) { dirPath := none, limit := some 1, cursor := some "0", includeMetadata := false } { contentType := some "application/json", body := .arr [{ IsDirectory := .jsBool false, Path := .jsStr "/p/", ObjectName := .jsStr "one.txt", LastChanged := .jsStr "2026-02-05", Length := .jsNum 2, ContentType := .jsStr "text/plain" }, { IsDirectory := .jsBool false, Path := .jsStr "/p/", ObjectName := .jsStr "two.txt", LastChanged := .jsStr "2026-02-05", Length := .jsNum 2, ContentType := .jsStr "text/plain" }] } = .ok page ∧
      page.files = sliceUpTo ((some (1 : Int)).map Int.toNat) (([{ key := "/p/one.txt", meta := none }, { key := "/p/two.txt", meta := none }] : List OutputItem).drop 0) ∧
      (∀ s, page.cursor = some s →
        s = toString (0 + page.files.length) ∧
        0 + page.files.length < ([{ key := "/p/one.txt", meta := none }, { key := "/p/two.txt", meta := none }] : List OutputItem).length) ∧
      (page.cursor = none ↔ ([{ key := "/p/one.txt", meta := none }, { key := "/p/two.txt", meta := none }] : List OutputItem).length ≤ 0 + page.files.length)) :=
  ⟨⟨rfl, rfl, rfl⟩, claim_C1_pagination _ _ _ _ _ rfl rfl rfl⟩

/-- C2: a list call whose limit option is a non-positive integer fails with
InputValidationError whose message mentions "limit"; a call whose limit passes
validation but whose cursor is not a well-formed page token fails with
InputValidationError whose message mentions "cursor". -/
theorem claim_C2_input_validation (pd : String → Option Int) (opts : ListOpts)
    (res : ListResponse) :
    (∀ l : Int, opts.limit = some l → l ≤ 0 →
      ∃ m, listPaginated pd opts res = .error (.inputValidation m) ∧
        ∃ a b, m = a ++ "limit" ++ b) ∧
    (checkLimit opts.limit = .ok () →
      ∀ c, opts.cursor = some c → parseDecimal c = none →
        ∃ m, listPaginated pd opts res = .error (.inputValidation m) ∧
          ∃ a b, m = a ++ "cursor" ++ b) := by
  constructor
  · intro l hl hle
    have hnl : ¬(0 < l) := not_lt.mpr hle
    refine ⟨"Expected \"" ++ ("limit" ++ ("\" to be a positive integer but got: " ++ toString l)),
      ?_, "Expected \"", "\" to be a positive integer but got: " ++ toString l, ?_⟩
    · simp [listPaginated, checkLimit, hl, hnl]
    · rw [strAppendAssoc]
  · intro hok c hc hparse
    refine ⟨"Expected \"" ++ ("cursor" ++ ("\" to be a well-formed page token but got: \"" ++ (c ++ "\""))),
      ?_, "Expected \"", "\" to be a well-formed page token but got: \"" ++ (c ++ "\""), ?_⟩
    · simp [listPaginated, hok, parseCursorOffset, hc, hparse]
    · rw [strAppendAssoc]

theorem claim_C2_witness :
    ((-1 : Int) ≤ 0 ∧ parseDecimal "-1" = none ∧
      checkLimit (none : Option Int) = .ok ()) ∧
    (∃ m, listPaginated (fun _ => (none : Option Int)) { dirPath := none, limit := some (-1), cursor := none, includeMetadata := false } { contentType := none, body := .nonArray "object" } = .error (.inputValidation m) ∧
      ∃ a b, m = a ++ "limit" ++ b) ∧
    (∃ m, listPaginated (fun _ => (none : Option Int)) { dirPath := none, limit := none, cursor := some "-1", includeMetadata := false } { contentType := none, body := .nonArray "object" } = .error (.inputValidation m) ∧
      ∃ a b, m = a ++ "cursor" ++ b) := by
  refine ⟨⟨by decide, by rfl, rfl⟩, ?_, ?_⟩
  · exact (claim_C2_input_validation _ _ _).1 (-1) rfl (by decide)
  · exact (claim_C2_input_validation _ _ _).2 rfl "-1" rfl (by rfl)

end BunnyStorage
